import Mathlib

/-!
Verification of the `bolt` repository (`src/services/api.ts`) against its
natural-language specification.

The repository's only source file is a data-access layer, `ApiService`,
operating in mock mode (`useMockData = true`): every operation either
serves fixed mock data or falls back to it.  The spec's execution core
(template resolver, script sandbox, test runner) is not present in the
source; those components are modelled from the spec where a claim needs
them, and each such definition is marked `Modelled from the spec:`.

Strings are embedded as Lean `String`s; JS objects become structures,
arrays become lists, object maps become association lists, thrown
exceptions become `Except.error`, and the nondeterministic outcome of the
external `fetch` becomes an explicit `FetchOutcome` argument.
-/

namespace Bolt

/-- A collection summary, as in the `Collection` type used by `api.ts`
(fields `_id`, `name`, `description`, `size`, `createdAt`). -/
structure Collection where
  _id : String
  name : String
  description : String
  size : Nat
  createdAt : String
deriving DecidableEq, Repr

/-- An HTTP request, as in the `HttpRequest` type used by `api.ts`
(its fields are those appearing in the mock data).  `pathVariables` is
optional in the source; a missing map is embedded as `[]`. -/
structure HttpRequest where
  _id : String
  collectionId : String
  name : String
  method : String
  url : String
  headers : List (String × String)
  body : String
  bodyType : String
  preScript : String
  postScript : String
  tests : String
  pathVariables : List (String × String)
  createdAt : String
  updatedAt : String
deriving DecidableEq, Repr

/-- A full collection with its requests, as in the `CollectionFull` type
used by `api.ts`. -/
structure CollectionFull where
  _id : String
  name : String
  description : String
  requests : List HttpRequest
  createdAt : String
deriving DecidableEq, Repr

/-- An environment, as in the `Environment` type used by `api.ts`:
`variables` is an object map of variable name to string value, embedded
as an association list. -/
structure Environment where
  _id : String
  name : String
  «variables» : List (String × String)
  isActive : Bool
  createdAt : String
deriving DecidableEq, Repr

/-- `ApiService.getMockCollections` (api.ts lines 377-403), the fixed
mock collection list. -/
def getMockCollections : List Collection :=
  [ { _id := "1"
    , name := "User Management API"
    , description := "APIs for user registration, authentication, and profile management"
    , size := 8
    , createdAt := "2024-01-15T10:30:00Z" }
  , { _id := "2"
    , name := "E-commerce API"
    , description := "Product catalog, shopping cart, and order management endpoints"
    , size := 12
    , createdAt := "2024-01-20T14:45:00Z" }
  , { _id := "3"
    , name := "Payment Gateway"
    , description := "Payment processing and transaction management APIs"
    , size := 6
    , createdAt := "2024-01-25T09:15:00Z" } ]

/-- `ApiService.getMockCollectionFull` (api.ts lines 405-455): for any
`collectionId` it returns the same two mock requests (with ids derived
from `collectionId`). Literal braces of the source strings are written
with `\x7b` and `\x7d` escapes. -/
def getMockCollectionFull (collectionId : String) : CollectionFull :=
  { _id := collectionId
  , name := "User Management API"
  , description := "APIs for user registration, authentication, and profile management"
  , requests :=
    [ { _id := collectionId ++ "_req_1"
      , collectionId := collectionId ++ "_req_1"
      , name := "Get User Profile"
      , method := "GET"
      , url := "https://api.example.com/users/\x7b\x7buserId\x7d\x7d"
      , headers :=
          [ ("Authorization", "Bearer \x7b\x7btoken\x7d\x7d")
          , ("Content-Type", "application/json") ]
      , body := ""
      , bodyType := "none"
      , preScript := ""
      , postScript := "pm.environment.set(\"userId\", pm.response.json().id);"
      , tests := "pm.test(\"Status code is 200\", function () \x7b\n    pm.response.to.have.status(200);\n\x7d);"
      , pathVariables := [("userId", "123")]
      , createdAt := "2024-01-15T10:30:00Z"
      , updatedAt := "2024-01-15T10:30:00Z" }
    , { _id := collectionId ++ "_req_2"
      , collectionId := collectionId ++ "_req_2"
      , name := "Create User"
      , method := "POST"
      , url := "https://api.example.com/users"
      , headers := [("Content-Type", "application/json")]
      , body := "\x7b\n  \"name\": \"John Doe\",\n  \"email\": \"john@example.com\",\n  \"password\": \"securePassword123\"\n\x7d"
      , bodyType := "json"
      , preScript := ""
      , postScript := ""
      , tests := "pm.test(\"User created successfully\", function () \x7b\n    pm.response.to.have.status(201);\n    pm.expect(pm.response.json()).to.have.property(\"id\");\n\x7d);"
      , pathVariables := []
      , createdAt := "2024-01-15T11:00:00Z"
      , updatedAt := "2024-01-15T11:00:00Z" } ]
  , createdAt := "2024-01-15T10:30:00Z" }

/-- `ApiService.getMockEnvironments` (api.ts lines 457-482), the fixed
mock environment list. -/
def getMockEnvironments : List Environment :=
  [ { _id := "1"
    , name := "Development"
    , «variables» :=
        [ ("baseUrl", "https://api-dev.example.com")
        , ("token", "dev-token-123")
        , ("userId", "1") ]
    , isActive := true
    , createdAt := "2024-01-15T10:30:00Z" }
  , { _id := "2"
    , name := "Production"
    , «variables» :=
        [ ("baseUrl", "https://api.example.com")
        , ("token", "prod-token-456")
        , ("userId", "1") ]
    , isActive := false
    , createdAt := "2024-01-20T14:45:00Z" } ]

/-- The input of `createCollection`: `Omit<Collection, "_id" | "size" | "createdAt">`. -/
structure NewCollection where
  name : String
  description : String
deriving DecidableEq, Repr

/-- `ApiService.createCollection` in mock mode (api.ts lines 49-56):
`_id` comes from `Date.now().toString()` and `createdAt` from
`new Date().toISOString()`, which are embedded as the explicit arguments
`nowMs` and `nowIso`; the collection is created with `size := 0`. -/
def createCollection (nowMs nowIso : String) (collection : NewCollection) : Collection :=
  { _id := nowMs
  , name := collection.name
  , description := collection.description
  , size := 0
  , createdAt := nowIso }

/-- The input of `updateCollection`: `Partial<Collection>`; a `none`
field is absent from the `updates` object. -/
structure CollectionUpdates where
  _id : Option String
  name : Option String
  description : Option String
  size : Option Nat
  createdAt : Option String
deriving DecidableEq, Repr

/-- The JS object spread `{ ...collection, ...updates }` for a
`Collection` and a `Partial<Collection>`: every field present in
`updates` replaces the collection's field; absent fields are kept. -/
def spreadCollection (c : Collection) (u : CollectionUpdates) : Collection :=
  { _id := u._id.getD c._id
  , name := u.name.getD c.name
  , description := u.description.getD c.description
  , size := u.size.getD c.size
  , createdAt := u.createdAt.getD c.createdAt }

/-- `ApiService.updateCollection` in mock mode (api.ts lines 86-93):
find the mock collection with the given `_id`; throw
`"Collection not found"` when there is none, else return the spread
`{ ...collection, ...updates }`. -/
def updateCollection (collectionId : String) (updates : CollectionUpdates) :
    Except String Collection :=
  match getMockCollections.find? (fun c => c._id == collectionId) with
  | none => .error "Collection not found"
  | some collection => .ok (spreadCollection collection updates)

/-- The input of `updateEnvironment`: `Partial<Environment>`. -/
structure EnvironmentUpdates where
  _id : Option String
  name : Option String
  «variables» : Option (List (String × String))
  isActive : Option Bool
  createdAt : Option String
deriving DecidableEq, Repr

/-- The JS object spread `{ ...environment, ...updates }` for an
`Environment` and a `Partial<Environment>`. -/
def spreadEnvironment (e : Environment) (u : EnvironmentUpdates) : Environment :=
  { _id := u._id.getD e._id
  , name := u.name.getD e.name
  , «variables» := u.variables.getD e.variables
  , isActive := u.isActive.getD e.isActive
  , createdAt := u.createdAt.getD e.createdAt }

/-- `ApiService.updateEnvironment` in mock mode (api.ts lines 322-332):
find the mock environment with the given `_id`; throw
`"Environment not found"` when there is none, else return the spread
`{ ...environment, ...updates }`.  Nothing else is touched: the
environment list itself is a fresh constant on every read. -/
def updateEnvironment (environmentId : String) (updates : EnvironmentUpdates) :
    Except String Environment :=
  match getMockEnvironments.find? (fun e => e._id == environmentId) with
  | none => .error "Environment not found"
  | some environment => .ok (spreadEnvironment environment updates)

/-- `charsLead t s` holds when the character list `s` starts with `t`
(the primitive behind the JS `String.prototype.includes` check below). -/
def charsLead : List Char → List Char → Bool
  | [], _ => true
  | _ :: _, [] => false
  | c :: cs, d :: ds => c == d && charsLead cs ds

/-- `charsContain s t` is the JS `s.includes(t)`: `t` occurs as a
contiguous substring of `s` (always true for empty `t`). -/
def charsContain : List Char → List Char → Bool
  | [], t => charsLead t []
  | c :: cs, t => charsLead t (c :: cs) || charsContain cs t

/-- The JS `s.toLowerCase()` on the character content of `s` (character
by character, which agrees with JS on the ASCII strings at play). -/
def lowerChars (s : String) : List Char := s.data.map Char.toLower

/-- `ApiService.searchCollections` in mock mode (api.ts lines 238-245):
filter the mock collections, keeping those whose lower-cased name or
lower-cased description includes the lower-cased query. -/
def searchCollections (query : String) : List Collection :=
  getMockCollections.filter (fun collection =>
    charsContain (lowerChars collection.name) (lowerChars query) ||
    charsContain (lowerChars collection.description) (lowerChars query))

/-- The outcome of the external `fetch` call (plus `response.json()`),
which the source reaches only when `useMockData` is false: a parsed
payload, a non-ok response (`!response.ok`, carrying the status), or a
rejected promise (network or parse failure, carrying a message). -/
inductive FetchOutcome (α : Type)
  | success (data : α)
  | httpError (status : Nat)
  | networkError (message : String)
deriving DecidableEq, Repr

/-- The body of the `try` block of `getCollections`/`getEnvironments`
(api.ts lines 13-18 and 273-278): a non-ok response throws
`HTTP error! status: ...`, a rejected fetch rethrows its message, and an
ok response returns the parsed payload. -/
def fetchResult {α : Type} : FetchOutcome α → Except String α
  | .success data => .ok data
  | .httpError status => .error ("HTTP error! status: " ++ toString status)
  | .networkError message => .error message

/-- `ApiService.getCollections` (api.ts lines 8-24), with the mock flag
and the fetch outcome as explicit arguments: mock mode returns the mock
list; otherwise any error thrown in the `try` block is caught and the
mock list is returned in its place. -/
def getCollections (useMockData : Bool) (fetched : FetchOutcome (List Collection)) :
    Except String (List Collection) :=
  if useMockData then .ok getMockCollections
  else
    match fetchResult fetched with
    | .ok data => .ok data
    | .error _ => .ok getMockCollections

/-- `ApiService.getEnvironments` (api.ts lines 268-283), with the mock
flag and the fetch outcome as explicit arguments: mock mode returns the
mock list; otherwise any error thrown in the `try` block is caught and
the mock list is returned in its place. -/
def getEnvironments (useMockData : Bool) (fetched : FetchOutcome (List Environment)) :
    Except String (List Environment) :=
  if useMockData then .ok getMockEnvironments
  else
    match fetchResult fetched with
    | .ok data => .ok data
    | .error _ => .ok getMockEnvironments

/-- Modelled from the spec: the identifier grammar of §4.2/§6 is
`[A-Za-z_][A-Za-z0-9_]*`; this tests the leading character class. -/
def isIdentStart (c : Char) : Bool := c.isAlpha || c == '_'

/-- Modelled from the spec: the continuation character class
`[A-Za-z0-9_]` of the placeholder identifier grammar. -/
def isIdentChar (c : Char) : Bool := c.isAlphanum || c == '_'

/-- Modelled from the spec: read the longest run of identifier
characters, returning it together with the unread remainder. -/
def readIdent : List Char → List Char × List Char
  | [] => ([], [])
  | c :: cs =>
    if isIdentChar c then
      let p := readIdent cs
      (c :: p.1, p.2)
    else ([], c :: cs)

/-- Modelled from the spec: recognise a placeholder
`\x7b\x7bidentifier\x7d\x7d` at the head of the input.  On success,
return the identifier and the input after the closing braces; literal
double braces that do not match the identifier grammar are not
placeholders (§4.2: they are left untouched). -/
def tryPlaceholder : List Char → Option (String × List Char)
  | c1 :: c2 :: rest =>
    if c1 = '{' ∧ c2 = '{' then
      match (readIdent rest).1, (readIdent rest).2 with
      | ic :: ics, r1 :: r2 :: rem =>
        if r1 = '}' ∧ r2 = '}' ∧ isIdentStart ic then some (String.mk (ic :: ics), rem)
        else none
      | _, _ => none
    else none
  | _ => none

/-- Modelled from the spec (§4.2, §7): `ResolutionError` names the
templated field, the unresolved identifier, and its offset in that
field. -/
structure ResolutionError where
  field : String
  identifier : String
  offset : Nat
deriving DecidableEq, Repr

/-- Association-list lookup, the embedding of reading a key from a JS
object map. -/
def lookupAssoc : List (String × String) → String → Option String
  | [], _ => none
  | (k, v) :: ps, n => if k = n then some v else lookupAssoc ps n

/-- Modelled from the spec (§4.2): scope lookup in strict precedence
order — (1) request-level `pathVariables`, (2) the active environment's
variables; first scope containing the name wins. -/
def lookupVar (pathVariables : List (String × String)) (activeEnv : Option Environment)
    (n : String) : Option String :=
  match lookupAssoc pathVariables n with
  | some v => some v
  | none =>
    match activeEnv with
    | some e => lookupAssoc e.«variables» n
    | none => none

/-- Modelled from the spec (§4.2): one left-to-right substitution pass
over a templated field.  `fuel` bounds the recursion and is always
instantiated with the input length, which suffices because every step
consumes at least one character; `ofs` is the offset of the current
position in the original field.  A placeholder whose identifier is found
is replaced verbatim by the value (no re-templating); an identifier in
no scope yields a `ResolutionError` naming field, identifier and
offset. -/
def substGo (lk : String → Option String) (fname : String) :
    Nat → Nat → List Char → Except ResolutionError (List Char)
  | _, _, [] => .ok []
  | 0, ofs, _ :: _ => .error { field := fname, identifier := "", offset := ofs }
  | fuel + 1, ofs, c :: cs =>
    match tryPlaceholder (c :: cs) with
    | some (n, rem) =>
      match lk n with
      | some v =>
        (substGo lk fname fuel (ofs + ((c :: cs).length - rem.length)) rem).map
          (fun t => v.data ++ t)
      | none => .error { field := fname, identifier := n, offset := ofs }
    | none => (substGo lk fname fuel (ofs + 1) cs).map (fun t => c :: t)

/-- Modelled from the spec (§4.2): scan one templated field, starting at
offset 0 with sufficient fuel. -/
def substScan (lk : String → Option String) (fname : String) (s : List Char) :
    Except ResolutionError (List Char) :=
  substGo lk fname s.length 0 s

/-- The identifiers of the placeholder occurrences of a field, in scan
order (same scan skeleton as `substGo`, fuel-bounded the same way). -/
def phGo : Nat → List Char → List String
  | _, [] => []
  | 0, _ :: _ => []
  | fuel + 1, c :: cs =>
    match tryPlaceholder (c :: cs) with
    | some (n, rem) => n :: phGo fuel rem
    | none => phGo fuel cs

/-- The identifiers of the placeholder occurrences of a field. -/
def placeholdersIn (s : List Char) : List String := phGo s.length s

/-- Modelled from the spec (§3): the derived, ephemeral
`ResolvedRequest` — method plus fully expanded URL, headers and body. -/
structure ResolvedRequest where
  method : String
  url : String
  headers : List (String × String)
  body : String
deriving DecidableEq, Repr

/-- Modelled from the spec (§4.2): resolve each header value in order,
reporting the first failure; the error's field names the header key. -/
def resolveHeaders (lk : String → Option String) :
    List (String × String) → Except ResolutionError (List (String × String))
  | [] => .ok []
  | (k, v) :: hs =>
    match substScan lk ("header." ++ k) v.data with
    | .error e => .error e
    | .ok v' =>
      match resolveHeaders lk hs with
      | .error e => .error e
      | .ok rest => .ok ((k, String.mk v') :: rest)

/-- Modelled from the spec (§4.2): `resolve(request, pathVariables,
activeEnv)` expands URL, headers and body through `lookupVar`, failing
with the first `ResolutionError` and otherwise producing the
`ResolvedRequest`. -/
def resolve (r : HttpRequest) (pathVariables : List (String × String))
    (activeEnv : Option Environment) : Except ResolutionError ResolvedRequest :=
  let lk := lookupVar pathVariables activeEnv
  match substScan lk "url" r.url.data with
  | .error e => .error e
  | .ok u =>
    match resolveHeaders lk r.headers with
    | .error e => .error e
    | .ok hs =>
      match substScan lk "body" r.body.data with
      | .error e => .error e
      | .ok b => .ok { method := r.method, url := String.mk u, headers := hs, body := String.mk b }

/-- The placeholder identifiers of all header values, in order. -/
def headerPlaceholders : List (String × String) → List String
  | [] => []
  | (_, v) :: hs => placeholdersIn v.data ++ headerPlaceholders hs

/-- All placeholder identifiers of a request's templated fields (URL,
header values, body), in scan order. -/
def requestPlaceholders (r : HttpRequest) : List String :=
  placeholdersIn r.url.data ++ headerPlaceholders r.headers ++ placeholdersIn r.body.data

/-- An environment with every binding of `n` removed from its variable
map — used to state that a shadowed environment binding is irrelevant. -/
def eraseEnvVar (n : String) (e : Environment) : Environment :=
  { e with «variables» := e.«variables».filter (fun kv => !(kv.1 == n)) }

/-- `n` is a valid placeholder identifier per the grammar
`[A-Za-z_][A-Za-z0-9_]*`. -/
def isValidIdent (n : String) : Bool :=
  match n.data with
  | [] => false
  | c :: cs => isIdentStart c && cs.all isIdentChar

/-- Modelled from the spec (§6): the response handed back by the
transport collaborator, opaque to this core beyond status, headers and
body. -/
structure Response where
  status : Nat
  headers : List (String × String)
  body : String
deriving DecidableEq, Repr

/-- Modelled from the spec (§4.3): the capability surface visible to a
script — read access to the resolved request, read access to the
response (absent for pre-send scripts), and the active environment's
variable map. -/
structure ScriptContext where
  request : ResolvedRequest
  response : Option Response
  env : List (String × String)
deriving DecidableEq, Repr

/-- Modelled from the spec (§4.3, §9): the Script Sandbox itself is
absent from `src/` (only `preScript`/`postScript` sources appear in the
mock data), and §6 leaves the script grammar an implementation choice;
scripts are therefore modelled as already-parsed expressions over the
enumerated capability surface.  An expression reads a literal, an
environment variable, the request, or the response. -/
inductive SExpr
  | lit (v : String)
  | envGet (n : String)
  | reqUrl
  | respStatus
  | respBody
deriving DecidableEq, Repr

/-- Modelled from the spec (§4.3): a script statement either writes an
environment variable or raises a runtime error. -/
inductive SStmt
  | envSet (n : String) (e : SExpr)
  | throwError (message : String)
deriving DecidableEq, Repr

/-- Insert-or-replace a binding in an association list (the environment
mutation applied by `set(name, value)`). -/
def setAssoc (env : List (String × String)) (n v : String) : List (String × String) :=
  match env with
  | [] => [(n, v)]
  | (k, w) :: ps => if k = n then (n, v) :: ps else (k, w) :: setAssoc ps n v

/-- Modelled from the spec (§4.3): evaluate one expression; reading an
unbound variable or a missing response is a runtime error carrying an
error text. -/
def evalSExpr (ctx : ScriptContext) (env : List (String × String)) :
    SExpr → Except String String
  | .lit v => .ok v
  | .envGet n =>
    match lookupAssoc env n with
    | some v => .ok v
    | none => .error ("undefined variable: " ++ n)
  | .reqUrl => .ok ctx.request.url
  | .respStatus =>
    match ctx.response with
    | some resp => .ok (toString resp.status)
    | none => .error "no response available"
  | .respBody =>
    match ctx.response with
    | some resp => .ok resp.body
    | none => .error "no response available"

/-- Modelled from the spec (§4.3): run the statements in order, threading
the environment and collecting the log of applied mutations; the first
runtime error (a `throwError` or a failing expression) aborts evaluation
with that error text. -/
def evalScript (ctx : ScriptContext) :
    List (String × String) → List (String × String) → List SStmt →
    Except String (List (String × String) × List (String × String))
  | env, log, [] => .ok (env, log.reverse)
  | env, log, .envSet n e :: rest =>
    match evalSExpr ctx env e with
    | .ok v => evalScript ctx (setAssoc env n v) ((n, v) :: log) rest
    | .error m => .error m
  | _, _, .throwError m :: _ => .error m

/-- Modelled from the spec (§3): a `ScriptResult` is either success with
the log of environment mutations applied, or failure with an error
description. -/
inductive ScriptResult
  | success (env : List (String × String)) (log : List (String × String))
  | failure (message : String)
deriving DecidableEq, Repr

/-- Modelled from the spec (§4.3): `run(scriptSource, context)` executes
the script against the context's environment and always returns a
structured `ScriptResult` — a runtime error is captured as a `failure`
carrying the error text, never propagated. -/
def run (src : List SStmt) (ctx : ScriptContext) : ScriptResult :=
  match evalScript ctx ctx.env [] src with
  | .ok (env, log) => .success env log
  | .error m => .failure m

/-- Modelled from the spec (§4.4): the supported assertion predicate
primitives — status-code equality, header presence/equality, and body
content checks (the body is an opaque string in this core, so field
existence/equality are containment/equality checks on it). -/
inductive TAssert
  | statusIs (code : Nat)
  | headerPresent (k : String)
  | headerIs (k v : String)
  | bodyContains (v : String)
  | bodyIs (v : String)
deriving DecidableEq, Repr

/-- Modelled from the spec (§4.4): a named assertion of a test script. -/
structure NamedAssertion where
  name : String
  check : TAssert
deriving DecidableEq, Repr

/-- Modelled from the spec (§3): one entry of a `TestReport` — assertion
name, pass flag, optional failure message. -/
structure TestEntry where
  name : String
  passed : Bool
  message : Option String
deriving DecidableEq, Repr

/-- Modelled from the spec (§4.4): evaluate one assertion predicate
against a response. -/
def evalAssertion (resp : Response) : TAssert → Bool
  | .statusIs code => resp.status == code
  | .headerPresent k => (lookupAssoc resp.headers k).isSome
  | .headerIs k v => lookupAssoc resp.headers k == some v
  | .bodyContains v => charsContain resp.body.data v.data
  | .bodyIs v => resp.body == v

/-- Modelled from the spec (§4.4): each assertion is evaluated
independently and yields exactly one report entry; a missing response is
contained per-assertion as a failed entry, never as a script-level
error. -/
def runTestEntry (ctx : ScriptContext) (a : NamedAssertion) : TestEntry :=
  match ctx.response with
  | none => { name := a.name, passed := false, message := some "no response available" }
  | some resp =>
    let ok := evalAssertion resp a.check
    { name := a.name
    , passed := ok
    , message := if ok then none else some ("assertion failed: " ++ a.name) }

/-- Modelled from the spec (§4.4): `runTests(scriptSource, context)`
maps the assertions of the (already parsed) test script to report
entries; the empty script yields the empty report. -/
def runTests (src : List NamedAssertion) (ctx : ScriptContext) : List TestEntry :=
  src.map (runTestEntry ctx)

/-! ### Helper lemmas -/

theorem charsLead_iff (t : List Char) : ∀ s, charsLead t s = true ↔ t <+: s := by
  induction t with
  | nil => intro s; simp [charsLead]
  | cons c cs ih =>
    intro s
    cases s with
    | nil => simp [charsLead]
    | cons d ds => simp [charsLead, ih]

theorem charsContain_iff (s t : List Char) : charsContain s t = true ↔ t <:+: s := by
  induction s with
  | nil =>
    cases t with
    | nil => simp [charsContain, charsLead]
    | cons c cs => simp [charsContain, charsLead]
  | cons c cs ih =>
    simp [charsContain, charsLead_iff, ih, List.infix_cons_iff]

theorem charsContain_nil (s : List Char) : charsContain s [] = true := by
  cases s with
  | nil => rfl
  | cons c cs => simp [charsContain, charsLead]

theorem readIdent_append (s : List Char) : (readIdent s).1 ++ (readIdent s).2 = s := by
  induction s with
  | nil => rfl
  | cons c cs ih =>
    by_cases hc : isIdentChar c = true
    · simp [readIdent, hc, ih]
    · simp [readIdent, Bool.of_not_eq_true hc]

theorem readIdent_ident_stop (l r : List Char) (hr : isIdentChar '}' = false)
    (hl : ∀ c ∈ l, isIdentChar c = true) :
    readIdent (l ++ '}' :: r) = (l, '}' :: r) := by
  induction l with
  | nil => simp [readIdent, hr]
  | cons c cs ih =>
    have hc : isIdentChar c = true := hl c (List.mem_cons_self c cs)
    have hcs := ih (fun d hd => hl d (List.mem_cons_of_mem c hd))
    simp [readIdent, hc, hcs]

theorem tryPlaceholder_some : ∀ {s : List Char} {n : String} {rem : List Char},
    tryPlaceholder s = some (n, rem) →
    s = '{' :: '{' :: (n.data ++ '}' :: '}' :: rem) ∧ n.data ≠ []
  | [], n, rem, h => by simp [tryPlaceholder] at h
  | [c], n, rem, h => by simp [tryPlaceholder] at h
  | c1 :: c2 :: rest, n, rem, h => by
    rw [tryPlaceholder] at h
    split at h
    case isFalse => simp at h
    case isTrue hbrace =>
      obtain ⟨hb1, hb2⟩ := hbrace
      subst hb1
      subst hb2
      split at h
      case h_2 => simp at h
      case h_1 ic ics r1 r2 rem' hi hr =>
        split at h
        case isFalse => simp at h
        case isTrue hcl =>
          obtain ⟨e1, e2, hstart⟩ := hcl
          subst e1
          subst e2
          rw [Option.some_inj, Prod.mk.injEq] at h
          obtain ⟨hn, hrem⟩ := h
          subst hrem
          have happ := readIdent_append rest
          rw [hi, hr] at happ
          refine ⟨?_, ?_⟩
          · rw [← hn, ← happ]
          · rw [← hn]
            simp

theorem tryPlaceholder_length {s : List Char} {n : String} {rem : List Char}
    (h : tryPlaceholder s = some (n, rem)) : rem.length + 5 ≤ s.length := by
  obtain ⟨hs, hne⟩ := tryPlaceholder_some h
  subst hs
  have h1 : 1 ≤ n.data.length := by
    cases hd : n.data with
    | nil => exact absurd hd hne
    | cons a l => simp
  simp only [List.length_cons, List.length_append]
  omega

theorem exceptMap_error {ε α β : Type} {f : α → β} {x : Except ε α} {e : ε}
    (h : Except.map f x = Except.error e) : x = Except.error e := by
  cases x with
  | error e' =>
    simp only [Except.map] at h
    rw [Except.error.injEq] at h
    rw [h]
  | ok a => simp [Except.map] at h

theorem exceptMap_ok {ε α β : Type} {f : α → β} {x : Except ε α} {t : β}
    (h : Except.map f x = Except.ok t) : ∃ a, x = Except.ok a := by
  cases x with
  | error e' => simp [Except.map] at h
  | ok a => exact ⟨a, rfl⟩

theorem substGo_error (lk : String → Option String) (fname : String) :
    ∀ fuel s ofs e, s.length ≤ fuel →
      substGo lk fname fuel ofs s = .error e →
      e.identifier ∈ phGo fuel s ∧ lk e.identifier = none := by
  intro fuel
  induction fuel with
  | zero =>
    intro s ofs e hlen h
    cases s with
    | nil => simp [substGo] at h
    | cons c cs => simp at hlen
  | succ fuel ih =>
    intro s ofs e hlen h
    cases s with
    | nil => simp [substGo] at h
    | cons c cs =>
      rw [substGo] at h
      rw [phGo]
      rcases hp : tryPlaceholder (c :: cs) with _ | ⟨n, rem⟩
      · rw [hp] at h
        replace h : Except.map (fun t => c :: t) (substGo lk fname fuel (ofs + 1) cs) =
            Except.error e := h
        replace h := exceptMap_error h
        show e.identifier ∈ phGo fuel cs ∧ lk e.identifier = none
        exact ih cs (ofs + 1) e (by simp only [List.length_cons] at hlen; omega) h
      · rw [hp] at h
        replace h : (match lk n with
            | some v => Except.map (fun t => v.data ++ t)
                (substGo lk fname fuel (ofs + ((c :: cs).length - rem.length)) rem)
            | none => Except.error { field := fname, identifier := n, offset := ofs }) =
            Except.error e := h
        show e.identifier ∈ n :: phGo fuel rem ∧ lk e.identifier = none
        rcases hl : lk n with _ | v
        · replace h : Except.error { field := fname, identifier := n, offset := ofs } =
              Except.error e := hl ▸ h
          rw [Except.error.injEq] at h
          rw [← h]
          exact ⟨List.mem_cons_self _ _, hl⟩
        · rw [hl] at h
          replace h := exceptMap_error h
          have hrem : rem.length ≤ fuel := by
            have h5 := tryPlaceholder_length hp
            simp only [List.length_cons] at h5 hlen
            omega
          obtain ⟨hm, hlk⟩ := ih rem _ e hrem h
          exact ⟨List.mem_cons_of_mem _ hm, hlk⟩

theorem substGo_ok (lk : String → Option String) (fname : String) :
    ∀ fuel s ofs t, s.length ≤ fuel →
      substGo lk fname fuel ofs s = .ok t →
      ∀ n ∈ phGo fuel s, lk n ≠ none := by
  intro fuel
  induction fuel with
  | zero =>
    intro s ofs t hlen h n hn
    cases s with
    | nil => simp [phGo] at hn
    | cons c cs => simp at hlen
  | succ fuel ih =>
    intro s ofs t hlen h n hn
    cases s with
    | nil => simp [phGo] at hn
    | cons c cs =>
      rw [substGo] at h
      rw [phGo] at hn
      rcases hp : tryPlaceholder (c :: cs) with _ | ⟨m, rem⟩
      · rw [hp] at h hn
        replace h : Except.map (fun t => c :: t) (substGo lk fname fuel (ofs + 1) cs) =
            Except.ok t := h
        replace hn : n ∈ phGo fuel cs := hn
        obtain ⟨t', hin⟩ := exceptMap_ok h
        exact ih cs (ofs + 1) t' (by simp only [List.length_cons] at hlen; omega) hin n hn
      · rw [hp] at h hn
        replace h : (match lk m with
            | some v => Except.map (fun t => v.data ++ t)
                (substGo lk fname fuel (ofs + ((c :: cs).length - rem.length)) rem)
            | none => Except.error { field := fname, identifier := m, offset := ofs }) =
            Except.ok t := h
        replace hn : n ∈ m :: phGo fuel rem := hn
        rcases hl : lk m with _ | v
        · rw [hl] at h
          simp at h
        · rw [hl] at h
          obtain ⟨t', hin⟩ := exceptMap_ok h
          rcases List.mem_cons.mp hn with rfl | hmem
          · rw [hl]
            simp
          · have hrem : rem.length ≤ fuel := by
              have h5 := tryPlaceholder_length hp
              simp only [List.length_cons] at h5 hlen
              omega
            exact ih rem _ t' hrem hin n hmem

theorem substScan_error {lk : String → Option String} {fname : String} {s : List Char}
    {e : ResolutionError} (h : substScan lk fname s = .error e) :
    e.identifier ∈ placeholdersIn s ∧ lk e.identifier = none :=
  substGo_error lk fname s.length s 0 e le_rfl h

theorem substScan_ok {lk : String → Option String} {fname : String} {s : List Char}
    {t : List Char} (h : substScan lk fname s = .ok t) :
    ∀ n ∈ placeholdersIn s, lk n ≠ none :=
  substGo_ok lk fname s.length s 0 t le_rfl h

theorem resolveHeaders_error (lk : String → Option String) :
    ∀ hs e, resolveHeaders lk hs = .error e →
      e.identifier ∈ headerPlaceholders hs ∧ lk e.identifier = none := by
  intro hs
  induction hs with
  | nil => intro e h; simp [resolveHeaders] at h
  | cons kv rest ih =>
    intro e h
    rcases kv with ⟨k, v⟩
    rw [resolveHeaders] at h
    rw [headerPlaceholders]
    rcases hv : substScan lk ("header." ++ k) v.data with ev | v'
    · rw [hv] at h
      rw [Except.error.injEq] at h
      subst h
      obtain ⟨hm, hlk⟩ := substScan_error hv
      exact ⟨List.mem_append_left _ hm, hlk⟩
    · rw [hv] at h
      rcases hr : resolveHeaders lk rest with er | rest'
      · rw [hr] at h
        rw [Except.error.injEq] at h
        subst h
        obtain ⟨hm, hlk⟩ := ih er hr
        exact ⟨List.mem_append_right _ hm, hlk⟩
      · rw [hr] at h
        simp at h

theorem resolveHeaders_ok (lk : String → Option String) :
    ∀ hs t, resolveHeaders lk hs = .ok t →
      ∀ n ∈ headerPlaceholders hs, lk n ≠ none := by
  intro hs
  induction hs with
  | nil => intro t h n hn; simp [headerPlaceholders] at hn
  | cons kv rest ih =>
    intro t h n hn
    rcases kv with ⟨k, v⟩
    rw [resolveHeaders] at h
    rw [headerPlaceholders] at hn
    rcases hv : substScan lk ("header." ++ k) v.data with ev | v'
    · rw [hv] at h
      simp at h
    · rcases List.mem_append.mp hn with hm | hm
      · exact substScan_ok hv n hm
      · rw [hv] at h
        rcases hr : resolveHeaders lk rest with er | rest'
        · rw [hr] at h
          simp at h
        · exact ih rest' hr n hm

theorem resolve_error_char {r : HttpRequest} {pv : List (String × String)}
    {env : Option Environment} {e : ResolutionError} (h : resolve r pv env = .error e) :
    e.identifier ∈ requestPlaceholders r ∧ lookupVar pv env e.identifier = none := by
  simp only [resolve] at h
  rw [requestPlaceholders]
  rcases hu : substScan (lookupVar pv env) "url" r.url.data with eu | u
  · rw [hu] at h
    rw [Except.error.injEq] at h
    subst h
    obtain ⟨hm, hlk⟩ := substScan_error hu
    exact ⟨List.mem_append_left _ (List.mem_append_left _ hm), hlk⟩
  · rw [hu] at h
    rcases hh : resolveHeaders (lookupVar pv env) r.headers with eh | hs
    · rw [hh] at h
      rw [Except.error.injEq] at h
      subst h
      obtain ⟨hm, hlk⟩ := resolveHeaders_error _ _ _ hh
      exact ⟨List.mem_append_left _ (List.mem_append_right _ hm), hlk⟩
    · rw [hh] at h
      rcases hb : substScan (lookupVar pv env) "body" r.body.data with eb | b
      · rw [hb] at h
        rw [Except.error.injEq] at h
        subst h
        obtain ⟨hm, hlk⟩ := substScan_error hb
        exact ⟨List.mem_append_right _ hm, hlk⟩
      · rw [hb] at h
        simp at h

theorem resolve_ok_char {r : HttpRequest} {pv : List (String × String)}
    {env : Option Environment} {res : ResolvedRequest} (h : resolve r pv env = .ok res) :
    ∀ n ∈ requestPlaceholders r, lookupVar pv env n ≠ none := by
  simp only [resolve] at h
  intro n hn
  rw [requestPlaceholders] at hn
  rcases hu : substScan (lookupVar pv env) "url" r.url.data with eu | u
  · rw [hu] at h
    simp at h
  · rcases hh : resolveHeaders (lookupVar pv env) r.headers with eh | hs
    · rw [hu, hh] at h
      simp at h
    · rcases hb : substScan (lookupVar pv env) "body" r.body.data with eb | b
      · rw [hu, hh, hb] at h
        simp at h
      · rcases List.mem_append.mp hn with hn' | hbody
        · rcases List.mem_append.mp hn' with hurl | hhdr
          · exact substScan_ok hu n hurl
          · exact resolveHeaders_ok _ _ _ hh n hhdr
        · exact substScan_ok hb n hbody

theorem lookupAssoc_filter_ne (l : List (String × String)) (n m : String) (hmn : m ≠ n) :
    lookupAssoc (l.filter (fun kv => !(kv.1 == n))) m = lookupAssoc l m := by
  induction l with
  | nil => rfl
  | cons kv ps ih =>
    rcases kv with ⟨k, v⟩
    rw [List.filter_cons]
    by_cases hk : k = n
    · have hcond : (!((k, v).1 == n)) = false := by simp [hk]
      rw [hcond]
      simp only [Bool.false_eq_true, if_false]
      rw [ih]
      conv_rhs => rw [lookupAssoc]
      rw [if_neg (fun hh : k = m => hmn (hh ▸ hk))]

    · have hcond : (!((k, v).1 == n)) = true := by simp [hk]
      rw [hcond]
      simp only [if_true]
      simp only [lookupAssoc]
      by_cases hkm : k = m
      · rw [if_pos hkm, if_pos hkm]
      · rw [if_neg hkm, if_neg hkm]
        exact ih

theorem lookupVar_erase (pv : List (String × String)) (e : Environment) (n : String)
    (hn : lookupAssoc pv n ≠ none) :
    lookupVar pv (some e) = lookupVar pv (some (eraseEnvVar n e)) := by
  funext m
  rw [lookupVar, lookupVar]
  rcases hm : lookupAssoc pv m with _ | w
  · have hmn : m ≠ n := by
      intro hh
      subst hh
      exact hn hm
    show lookupAssoc e.«variables» m = lookupAssoc (eraseEnvVar n e).«variables» m
    rw [eraseEnvVar]
    exact (lookupAssoc_filter_ne _ n m hmn).symm
  · rfl

theorem isIdentChar_of_start {c : Char} (h : isIdentStart c = true) : isIdentChar c = true := by
  rw [isIdentStart] at h
  rw [isIdentChar]
  rcases Bool.or_eq_true_iff.mp h with h1 | h2
  · rw [Char.isAlphanum]
    simp [h1]
  · simp [h2]

theorem tryPlaceholder_valid (n : String) (rem : List Char) (hval : isValidIdent n = true) :
    tryPlaceholder ('{' :: '{' :: (n.data ++ '}' :: '}' :: rem)) = some (n, rem) := by
  rcases hd : n.data with _ | ⟨c, cs⟩
  · rw [isValidIdent, hd] at hval
    simp at hval
  · rw [isValidIdent, hd] at hval
    simp only [Bool.and_eq_true] at hval
    obtain ⟨hstart, hall⟩ := hval
    have hic : ∀ d ∈ c :: cs, isIdentChar d = true := by
      intro d hdm
      rcases List.mem_cons.mp hdm with rfl | hdm
      · exact isIdentChar_of_start hstart
      · exact List.all_eq_true.mp hall d hdm
    have hread := readIdent_ident_stop (c :: cs) ('}' :: rem) (by decide) hic
    rw [tryPlaceholder]
    rw [if_pos ⟨rfl, rfl⟩]
    rw [hread]
    show (if ('}' : Char) = '}' ∧ ('}' : Char) = '}' ∧ isIdentStart c = true then
        some (String.mk (c :: cs), rem) else none) = some (n, rem)
    rw [if_pos ⟨rfl, rfl, hstart⟩]
    rw [← hd]

theorem substScan_single (lk : String → Option String) (fname : String) (n v : String)
    (hval : isValidIdent n = true) (hlk : lk n = some v) :
    substScan lk fname ('{' :: '{' :: (n.data ++ ['}', '}'])) = .ok v.data := by
  have hp := tryPlaceholder_valid n [] hval
  rw [substScan]
  simp only [List.length_cons]
  rw [substGo]
  rw [hp]
  simp [hlk, Except.map, substGo]

/-! ### Claim theorems for the data-access layer -/

/-- C1, counterexample: the claim "the size reported by `getCollections`
equals the length of the requests returned by `getCollectionById`" fails
at collection id "1" — the reported size is 8, while
`getMockCollectionFull "1"` has exactly 2 requests. -/
theorem collection_size_counterexample :
    (getMockCollections.filter (fun c => c._id == "1")).map (fun c => c.size) = [8] ∧
    (getMockCollectionFull "1").requests.length = 2 ∧ (8 : Nat) ≠ 2 :=
  ⟨rfl, rfl, by decide⟩

/-- C1, amended: the mock sizes are the fixed values 8, 12, 6;
`getMockCollectionFull` returns exactly 2 requests for every collection
id (so the size field does not track the request count); and a
collection returned by `createCollection` always has size 0 (it is
created with no requests). -/
theorem collection_size_amended :
    getMockCollections.map (fun c => c.size) = [8, 12, 6] ∧
    (∀ collectionId, (getMockCollectionFull collectionId).requests.length = 2) ∧
    (∀ nowMs nowIso c, (createCollection nowMs nowIso c).size = 0) :=
  ⟨rfl, fun _ => rfl, fun _ _ _ => rfl⟩

/-- C2, counterexample: `updateEnvironment` does not preserve the
at-most-one-active invariant — activating environment "2" returns it
with `isActive = true`, while the environment list (which
`updateEnvironment` reads fresh and never writes) still reports
environment "1" active. -/
theorem environment_activation_counterexample :
    updateEnvironment "2"
        { _id := none, name := none, «variables» := none
        , isActive := some true, createdAt := none } =
      .ok { _id := "2", name := "Production"
          , «variables» :=
              [ ("baseUrl", "https://api.example.com")
              , ("token", "prod-token-456")
              , ("userId", "1") ]
          , isActive := true, createdAt := "2024-01-20T14:45:00Z" } ∧
    getMockEnvironments.map (fun e => (e._id, e.isActive)) = [("1", true), ("2", false)] :=
  ⟨rfl, rfl⟩

/-- C2, amended: the fixed environment list has exactly one active
environment (id "1"), but `updateEnvironment` does not enforce the
invariant: activating environment "2" (an update that sets `isActive`
and nothing else) yields an active environment while a distinct
environment of `getMockEnvironments` is still active. -/
theorem environment_activation_amended :
    (getMockEnvironments.filter (fun e => e.isActive)).map (fun e => e._id) = ["1"] ∧
    (∀ u : EnvironmentUpdates, u.isActive = some true → u._id = none →
      ∃ e', updateEnvironment "2" u = .ok e' ∧ e'.isActive = true ∧ e'._id = "2" ∧
        ∃ d ∈ getMockEnvironments, d.isActive = true ∧ d._id ≠ e'._id) := by
  refine ⟨rfl, ?_⟩
  intro u hact hid
  refine ⟨spreadEnvironment (getMockEnvironments.get ⟨1, by decide⟩) u, rfl, ?_, ?_, ?_⟩
  · simp [spreadEnvironment, hact]
  · simp [spreadEnvironment, hid, getMockEnvironments]
  · refine ⟨getMockEnvironments.get ⟨0, by decide⟩, by decide, by decide, ?_⟩
    simp [spreadEnvironment, hid, getMockEnvironments]

/-- Witness for the amended C2 theorem at the concrete activation
update. -/
theorem environment_activation_amended_witness :
    ∃ e', updateEnvironment "2"
        { _id := none, name := none, «variables» := none
        , isActive := some true, createdAt := none } = .ok e' ∧
      e'.isActive = true ∧ e'._id = "2" ∧
      ∃ d ∈ getMockEnvironments, d.isActive = true ∧ d._id ≠ e'._id :=
  environment_activation_amended.2
    { _id := none, name := none, «variables» := none
    , isActive := some true, createdAt := none } rfl rfl

/-- C10: in mock mode `updateCollection` fails with
`"Collection not found"` exactly when no mock collection has the given
id; and when the mock collection `c` has the given id, the result is `c`
with precisely the fields present in `updates` replaced (absent fields
keep their values). -/
theorem updateCollection_spec (collectionId : String) (updates : CollectionUpdates) :
    (updateCollection collectionId updates = .error "Collection not found" ↔
      ∀ c ∈ getMockCollections, c._id ≠ collectionId) ∧
    (∀ c ∈ getMockCollections, c._id = collectionId →
      updateCollection collectionId updates = .ok
        { _id := updates._id.getD c._id
        , name := updates.name.getD c.name
        , description := updates.description.getD c.description
        , size := updates.size.getD c.size
        , createdAt := updates.createdAt.getD c.createdAt }) := by
  constructor
  · unfold updateCollection
    rcases hf : getMockCollections.find? (fun c => c._id == collectionId) with _ | c
    · rw [hf]
      simp only [List.find?_eq_none, beq_iff_eq] at hf
      simpa using hf
    · have hc : c ∈ getMockCollections := List.mem_of_find?_eq_some hf
      have hid : c._id = collectionId := by
        have := List.find?_some hf
        simpa using this
      rw [hf]
      refine iff_of_false (by simp) ?_
      push_neg
      exact ⟨c, hc, hid⟩
  · intro c hc hid
    simp only [getMockCollections, List.mem_cons, List.not_mem_nil, or_false] at hc
    rcases hc with h | h | h <;> subst h <;> subst hid <;> rfl

/-- Witness for C10: a concrete rename of collection "1" replaces only
the name, and an unknown id fails with `"Collection not found"`. -/
theorem updateCollection_spec_witness :
    updateCollection "1"
        { _id := none, name := some "Renamed", description := none
        , size := none, createdAt := none } =
      .ok { _id := "1", name := "Renamed"
          , description := "APIs for user registration, authentication, and profile management"
          , size := 8, createdAt := "2024-01-15T10:30:00Z" } ∧
    updateCollection "99"
        { _id := none, name := none, description := none
        , size := none, createdAt := none } = .error "Collection not found" := by
  constructor
  · exact (updateCollection_spec "1"
      { _id := none, name := some "Renamed", description := none
      , size := none, createdAt := none }).2
      (getMockCollections.get ⟨0, by decide⟩) (by decide) rfl
  · exact (updateCollection_spec "99"
      { _id := none, name := none, description := none
      , size := none, createdAt := none }).1.mpr (by decide)

/-- C8: in mock mode `searchCollections q` keeps exactly those mock
collections whose lower-cased name or lower-cased description contains
the lower-cased query as a contiguous substring, and the empty query
returns the whole mock list in its original order. -/
theorem searchCollections_spec :
    (∀ q c, c ∈ searchCollections q ↔
      c ∈ getMockCollections ∧
        (lowerChars q <:+: lowerChars c.name ∨ lowerChars q <:+: lowerChars c.description)) ∧
    searchCollections "" = getMockCollections := by
  constructor
  · intro q c
    unfold searchCollections
    rw [List.mem_filter]
    simp [charsContain_iff]
  · unfold searchCollections
    have htrue : ∀ c : Collection,
        (charsContain (lowerChars c.name) (lowerChars "") ||
         charsContain (lowerChars c.description) (lowerChars "")) = true := by
      intro c
      simp [lowerChars, charsContain_nil]
    simp [List.filter_eq_self.mpr (fun c _ => htrue c)]

/-- C9: `getCollections` and `getEnvironments` never surface an error:
for every mock flag and every fetch outcome the result is `.ok`, and
whenever the fetched body throws (non-ok status or rejected promise) the
fixed mock data is returned. -/
theorem get_lists_never_error :
    (∀ m f, ∃ l, getCollections m f = .ok l) ∧
    (∀ m f e, fetchResult f = .error e → getCollections m f = .ok getMockCollections) ∧
    (∀ m f, ∃ l, getEnvironments m f = .ok l) ∧
    (∀ m f e, fetchResult f = .error e → getEnvironments m f = .ok getMockEnvironments) := by
  refine ⟨?_, ?_, ?_, ?_⟩
  · intro m f
    cases m with
    | true => exact ⟨getMockCollections, rfl⟩
    | false =>
      rcases hf : fetchResult f with e | data
      · exact ⟨getMockCollections, by simp [getCollections, hf]⟩
      · exact ⟨data, by simp [getCollections, hf]⟩
  · intro m f e hf
    cases m with
    | true => rfl
    | false => simp [getCollections, hf]
  · intro m f
    cases m with
    | true => exact ⟨getMockEnvironments, rfl⟩
    | false =>
      rcases hf : fetchResult f with e | data
      · exact ⟨getMockEnvironments, by simp [getEnvironments, hf]⟩
      · exact ⟨data, by simp [getEnvironments, hf]⟩
  · intro m f e hf
    cases m with
    | true => rfl
    | false => simp [getEnvironments, hf]

/-- Witness for C9 at concrete failing fetches: a 500 response and a
rejected promise both fall back to the mock data. -/
theorem get_lists_never_error_witness :
    getCollections false (.httpError 500) = .ok getMockCollections ∧
    getEnvironments false (.networkError "network down") = .ok getMockEnvironments :=
  ⟨get_lists_never_error.2.1 false (.httpError 500) "HTTP error! status: 500" rfl,
   get_lists_never_error.2.2.2 false (.networkError "network down") "network down" rfl⟩

/-- C4: if some placeholder of the request's URL, headers or body has an
identifier bound in neither `pathVariables` nor the active environment,
then `resolve` fails with a `ResolutionError` whose named identifier is
such an unresolvable placeholder identifier of the request — and it
never returns a `ResolvedRequest` (so it neither substitutes the empty
string nor leaves the placeholder text in place). -/
theorem resolve_unresolvable_fails (r : HttpRequest) (pv : List (String × String))
    (env : Option Environment)
    (h : ∃ n ∈ requestPlaceholders r, lookupVar pv env n = none) :
    (∃ e, resolve r pv env = .error e ∧ e.identifier ∈ requestPlaceholders r ∧
      lookupVar pv env e.identifier = none) ∧
    ∀ res, resolve r pv env ≠ .ok res := by
  obtain ⟨n, hn, hnone⟩ := h
  have hnotok : ∀ res, resolve r pv env ≠ .ok res := by
    intro res hok
    exact (resolve_ok_char hok n hn) hnone
  refine ⟨?_, hnotok⟩
  rcases he : resolve r pv env with e | res
  · obtain ⟨hm, hlk⟩ := resolve_error_char he
    exact ⟨e, rfl, hm, hlk⟩
  · exact absurd he (hnotok res)

/-- Witness for C4: a request whose URL references `baseUrl` with empty
`pathVariables` and no active environment fails with a
`ResolutionError` naming `baseUrl` (spec §8's third scenario). -/
theorem resolve_unresolvable_fails_witness :
    resolve
        { _id := "r1", collectionId := "c1", name := "Request", method := "GET"
        , url := "\x7b\x7bbaseUrl\x7d\x7d/users", headers := [], body := ""
        , bodyType := "none", preScript := "", postScript := "", tests := ""
        , pathVariables := [], createdAt := "", updatedAt := "" } [] none =
      .error { field := "url", identifier := "baseUrl", offset := 0 } ∧
    ∀ res, resolve
        { _id := "r1", collectionId := "c1", name := "Request", method := "GET"
        , url := "\x7b\x7bbaseUrl\x7d\x7d/users", headers := [], body := ""
        , bodyType := "none", preScript := "", postScript := "", tests := ""
        , pathVariables := [], createdAt := "", updatedAt := "" } [] none ≠ .ok res := by
  have h := resolve_unresolvable_fails
    { _id := "r1", collectionId := "c1", name := "Request", method := "GET"
    , url := "\x7b\x7bbaseUrl\x7d\x7d/users", headers := [], body := ""
    , bodyType := "none", preScript := "", postScript := "", tests := ""
    , pathVariables := [], createdAt := "", updatedAt := "" } [] none
    ⟨"baseUrl", by decide, rfl⟩
  exact ⟨rfl, h.2⟩

/-- C3: request-level `pathVariables` strictly shadow the active
environment's variables.  When `pathVariables` binds `n` (to `v`):
(1) scope lookup on `n` yields the `pathVariables` value `v`;
(2) the environment's own binding of `n` is irrelevant — resolving
against the environment with every `n`-binding erased gives the same
result for every request; and (3) for a request whose URL is exactly the
placeholder for `n`, `resolve` substitutes `v`. -/
theorem resolve_pathVariables_precedence (r : HttpRequest) (pv : List (String × String))
    (e : Environment) (n v : String) (hn : lookupAssoc pv n = some v) :
    lookupVar pv (some e) n = some v ∧
    resolve r pv (some e) = resolve r pv (some (eraseEnvVar n e)) ∧
    (isValidIdent n = true → r.url.data = '{' :: '{' :: (n.data ++ ['}', '}']) →
      r.headers = [] → r.body = "" →
      resolve r pv (some e) =
        .ok { method := r.method, url := v, headers := [], body := "" }) := by
  have hlk : lookupVar pv (some e) n = some v := by
    rw [lookupVar, hn]
  refine ⟨hlk, ?_, ?_⟩
  · simp only [resolve]
    rw [lookupVar_erase pv e n (by rw [hn]; simp)]
  · intro hval hurl hh hb
    simp only [resolve]
    rw [hurl, hh, hb]
    rw [substScan_single (lookupVar pv (some e)) "url" n v hval hlk]
    rfl

/-- Witness for C3, matching the spec §8 scenario family: with
`pathVariables = [("userId", "123")]` and the active mock Development
environment (which also binds `userId`, to `"1"`), resolving a request
whose URL is the `userId` placeholder substitutes `"123"` — the
`pathVariables` value, not the environment's. -/
theorem resolve_pathVariables_precedence_witness :
    lookupVar [("userId", "123")] (some (getMockEnvironments.get ⟨0, by decide⟩)) "userId" =
      some "123" ∧
    resolve
        { _id := "w1", collectionId := "c1", name := "Witness", method := "GET"
        , url := "\x7b\x7buserId\x7d\x7d", headers := [], body := ""
        , bodyType := "none", preScript := "", postScript := "", tests := ""
        , pathVariables := [], createdAt := "", updatedAt := "" }
        [("userId", "123")] (some (getMockEnvironments.get ⟨0, by decide⟩)) =
      .ok { method := "GET", url := "123", headers := [], body := "" } := by
  have h := resolve_pathVariables_precedence
    { _id := "w1", collectionId := "c1", name := "Witness", method := "GET"
    , url := "\x7b\x7buserId\x7d\x7d", headers := [], body := ""
    , bodyType := "none", preScript := "", postScript := "", tests := ""
    , pathVariables := [], createdAt := "", updatedAt := "" }
    [("userId", "123")] (getMockEnvironments.get ⟨0, by decide⟩) "userId" "123" rfl
  exact ⟨h.1, h.2.2 (by decide) rfl rfl rfl⟩

/-- C5: resolution is pure and deterministic — the result of `resolve`
is a function of its arguments alone (two calls with unchanged inputs
are the same term and thus yield identical outputs), and it reads
nothing of the request beyond the resolved fields: any two requests
agreeing on method, URL, headers and body resolve identically, whatever
their scripts, ids or timestamps. -/
theorem resolve_pure_idempotent (r r' : HttpRequest) (pv : List (String × String))
    (env : Option Environment) (hm : r.method = r'.method) (hu : r.url = r'.url)
    (hh : r.headers = r'.headers) (hb : r.body = r'.body) :
    resolve r pv env = resolve r pv env ∧ resolve r pv env = resolve r' pv env := by
  refine ⟨rfl, ?_⟩
  simp only [resolve]
  rw [hm, hu, hh, hb]

/-- Witness for C5: two requests differing only in their scripts and
timestamps resolve to the same result. -/
theorem resolve_pure_idempotent_witness :
    resolve
        { _id := "a", collectionId := "c", name := "A", method := "GET"
        , url := "https://api.example.com/users", headers := [], body := ""
        , bodyType := "none", preScript := "", postScript := "", tests := ""
        , pathVariables := [], createdAt := "", updatedAt := "" } [] none =
      resolve
        { _id := "b", collectionId := "c", name := "B", method := "GET"
        , url := "https://api.example.com/users", headers := [], body := ""
        , bodyType := "none", preScript := "x();", postScript := "y();", tests := "t();"
        , pathVariables := [], createdAt := "2024-01-01", updatedAt := "2024-01-02" } [] none :=
  (resolve_pure_idempotent
    { _id := "a", collectionId := "c", name := "A", method := "GET"
    , url := "https://api.example.com/users", headers := [], body := ""
    , bodyType := "none", preScript := "", postScript := "", tests := ""
    , pathVariables := [], createdAt := "", updatedAt := "" }
    { _id := "b", collectionId := "c", name := "B", method := "GET"
    , url := "https://api.example.com/users", headers := [], body := ""
    , bodyType := "none", preScript := "x();", postScript := "y();", tests := "t();"
    , pathVariables := [], createdAt := "2024-01-01", updatedAt := "2024-01-02" }
    [] none rfl rfl rfl rfl).2

/-- C6: a runtime error raised inside a script is captured as a
`ScriptResult.failure` carrying the error text, and `run` never lets a
fault escape — every call returns a structured `ScriptResult`, either a
success with the mutation log or a failure with a message. -/
theorem run_captures_errors :
    (∀ src ctx m, evalScript ctx ctx.env [] src = .error m → run src ctx = .failure m) ∧
    (∀ src ctx, (∃ env log, run src ctx = .success env log) ∨
      (∃ m, run src ctx = .failure m)) := by
  constructor
  · intro src ctx m h
    rw [run, h]
  · intro src ctx
    rw [run]
    rcases h : evalScript ctx ctx.env [] src with m | ⟨env, log⟩
    · exact .inr ⟨m, rfl⟩
    · exact .inl ⟨env, log, rfl⟩

/-- Witness for C6: a script that throws mid-execution (after a
successful mutation) yields a failure carrying exactly the thrown
text. -/
theorem run_captures_errors_witness :
    run [SStmt.envSet "x" (SExpr.lit "42"), SStmt.throwError "boom"]
      { request := { method := "GET", url := "https://api.example.com", headers := [], body := "" }
      , response := none, env := [] } = .failure "boom" :=
  run_captures_errors.1
    [SStmt.envSet "x" (SExpr.lit "42"), SStmt.throwError "boom"]
    { request := { method := "GET", url := "https://api.example.com", headers := [], body := "" }
    , response := none, env := [] } "boom" rfl

/-- C7: running the empty test script yields the empty `TestReport` for
every context (never an error — `runTests` is total and returns a
report), and in general each assertion yields exactly one report
entry. -/
theorem runTests_empty_report :
    (∀ ctx, runTests [] ctx = []) ∧
    (∀ ctx src, (runTests src ctx).length = src.length) := by
  constructor
  · intro ctx
    rfl
  · intro ctx src
    simp [runTests]

end Bolt
